import Mathlib

/-!
Verification of the crawl-to-index pipeline and query engine of the
AI-Shariah-Assistant repository (ingest.py, web.py), as a shallow
embedding in Lean 4.

String primitives: Python substring membership (`pat in s`), `str.split`,
`str.strip` and `str.lower` are modelled by structural recursion over the
underlying character lists so that every definition is executable and
kernel-reducible.
-/

namespace Shariah

/-- Does `pat` occur as a prefix of `s` (character lists)? -/
def charsIsPrefix : List Char → List Char → Bool
  | [], _ => true
  | _ :: _, [] => false
  | a :: as, b :: bs => a == b && charsIsPrefix as bs

/-- Does `pat` occur as a contiguous substring of `s` (character lists)?
Mirrors Python `pat in s`. -/
def charsContains (pat : List Char) : List Char → Bool
  | [] => charsIsPrefix pat []
  | c :: rest => charsIsPrefix pat (c :: rest) || charsContains pat rest

/-- Python substring test `pat in s`. -/
def strContains (s pat : String) : Bool :=
  charsContains pat.data s.data

/-- Split a character list on a (nonempty) separator `p :: ps`, scanning
left to right over non-overlapping occurrences; mirrors Python
`str.split(sep)`. Structural recursion on a fuel bound (any
`fuel ≥ l.length` gives the same result, since each step consumes at
least one character). -/
def splitSepChars (p : Char) (ps : List Char) : Nat → List Char → List (List Char)
  | _, [] => [[]]
  | 0, l => [l]
  | fuel + 1, c :: rest =>
    if charsIsPrefix (p :: ps) (c :: rest) then
      [] :: splitSepChars p ps fuel (rest.drop ps.length)
    else
      match splitSepChars p ps fuel rest with
      | [] => [[c]]
      | seg :: segs => (c :: seg) :: segs

/-- Python `s.split(sep)` for a nonempty separator (Python raises on an
empty separator; the program only splits on `"|||"` and `"/"`). -/
def pySplit (sep s : String) : List String :=
  match sep.data with
  | [] => [s]
  | p :: ps => (splitSepChars p ps s.data.length s.data).map fun cs => String.mk cs

/-- Whitespace as recognised by Python `str.strip()` (the characters the
program can actually meet in model output / CSV fields). -/
def isPySpace (c : Char) : Bool :=
  c == ' ' || c == '\t' || c == '\n' || c == '\r' || c == '\x0b' || c == '\x0c'

/-- Python `s.strip()`. -/
def pyStrip (s : String) : String :=
  String.mk (((s.data.dropWhile isPySpace).reverse.dropWhile isPySpace).reverse)

/-- Python `s.lower()` on the ASCII range (filenames and URLs here are
ASCII). -/
def pyLower (s : String) : String :=
  String.mk (s.data.map Char.toLower)

/-- Python `url.split("/")[-1]`: the last path segment of a URL; also
`os.path.basename` for the POSIX paths the program builds. -/
def lastSeg (url : String) : String :=
  (pySplit "/" url).getLastD ""

/-- A Python dict built by iterating assignments `m[k] = v` over `rows` in
order, then read with `m.get(k, d)`: the value of the LAST row whose key
matches wins. -/
def dictGet (rows : List (String × String)) (k d : String) : String :=
  match rows.reverse.find? (fun r => r.1 == k) with
  | some r => r.2
  | none => d

/-! ## ingest.py: crawl_and_download -/

/-- The rows of `sources.csv` as written by `crawl_and_download`
(ingest.py lines 120-126): after the header, one `[filename, url]` row per
discovered link, with `filename = link.split("/")[-1]`. -/
def csvRowsOf : List String → List (String × String)
  | [] => []
  | link :: rest => (lastSeg link, link) :: csvRowsOf rest

/-- The bulk-download loop of `crawl_and_download` (ingest.py lines
128-145): for each link, if a file named after its last path segment
already exists in the download directory the link is skipped; otherwise it
is fetched (the file appears in the directory) and counted as new.
Returns `(new_downloads, files in the download directory)`. -/
def downloadStep : List String → Nat → List String → Nat × List String
  | [], n, localFiles => (n, localFiles)
  | link :: rest, n, localFiles =>
    if lastSeg link ∈ localFiles then
      downloadStep rest n localFiles
    else
      downloadStep rest (n + 1) (localFiles ++ [lastSeg link])

/-- Model of `crawl_and_download` after link discovery (ingest.py lines 120-145),
as a function of the discovered link set (in iteration order) and the
files already in the download directory. Returns
`(new_downloads, files in the download directory, sources.csv rows)`. -/
def crawl_and_download (links localFiles : List String) :
    Nat × List String × List (String × String) :=
  let dl := downloadStep links 0 localFiles
  (dl.1, dl.2, csvRowsOf links)

/-! ## ingest.py: ingest_to_db -/

/-- Metadata attached to one parsed page: `doc.metadata["source"]`,
`doc.metadata["page"]` (set by the PDF loader, zero-based) and
`doc.metadata["url"]` (ingest.py lines 180-182). -/
structure DocMeta where
  source : String
  page : Nat
  url : String
deriving Repr, DecidableEq

/-- One loaded page-level document: its text plus its metadata. -/
structure Doc where
  page_content : String
  meta : DocMeta
deriving Repr, DecidableEq

/-- The page documents produced for one local PDF (ingest.py lines
173-184): the parsed page keeps its text and page number, `source` is set
to the file's basename and `url` to the provenance lookup with default
`"#"`. -/
def mkPageDoc (urlRows : List (String × String)) (pdfPath : String)
    (pg : String × Nat) : Doc :=
  { page_content := pg.1
    meta :=
      { source := lastSeg pdfPath
        page := pg.2
        url := dictGet urlRows (lastSeg pdfPath) "#" } }

/-- The `all_documents` accumulation loop of `ingest_to_db` (ingest.py
lines 173-186): a file whose parse fails (`parse p = none`, the `except`
branch) is skipped entirely; a parsed file contributes one `Doc` per page.
`parse` abstracts `PyPDFLoader(...).load()`, giving each page's text and
zero-based page number. -/
def ingestDocs (urlRows : List (String × String))
    (parse : String → Option (List (String × Nat))) :
    List String → List Doc
  | [] => []
  | p :: rest =>
    match parse p with
    | none => ingestDocs urlRows parse rest
    | some pages => pages.map (mkPageDoc urlRows p) ++ ingestDocs urlRows parse rest

/-- Model of `ingest_to_db` (ingest.py lines 150-195) over the abstract state:
`pdfFiles` is the glob of the download directory, `dbExists` whether the
persisted index directory exists, `csv` the provenance rows when
`sources.csv` exists. If there are no PDFs it returns immediately;
otherwise any existing index directory is deleted (`shutil.rmtree`)
before parsing, and a new index is written only when at least one document
was parsed. Returns `(does the persisted index exist afterwards,
the page documents that were indexed)`. -/
def ingest_to_db (pdfFiles : List String) (dbExists : Bool)
    (csv : Option (List (String × String)))
    (parse : String → Option (List (String × Nat))) : Bool × List Doc :=
  if pdfFiles.isEmpty then
    (dbExists, [])
  else
    let allDocuments := ingestDocs (csv.getD []) parse pdfFiles
    if allDocuments.isEmpty then (false, []) else (true, allDocuments)

/-! ## ingest.py: run_pipeline -/

/-- Python `s.endswith(suf)`. -/
def pyEndsWith (s suf : String) : Bool :=
  charsIsPrefix suf.data.reverse s.data.reverse

/-- Outcome of one `run_pipeline` execution (ingest.py lines 197-203). -/
structure PipelineResult where
  newFiles : Nat
  ingestInvoked : Bool
  dbExistsAfter : Bool
  localFiles : List String
  csvRows : List (String × String)
deriving Repr, DecidableEq

/-- Model of `run_pipeline` (ingest.py lines 197-203): crawl and download, then
call `ingest_to_db` exactly when `new_files > 0` or no persisted index
directory exists; otherwise skip the rebuild. -/
def run_pipeline (links localFiles : List String) (dbExists : Bool)
    (parse : String → Option (List (String × Nat))) : PipelineResult :=
  let r := crawl_and_download links localFiles
  if r.1 > 0 || !dbExists then
    let ing := ingest_to_db (r.2.1.filter fun f => pyEndsWith f ".pdf")
      dbExists (some r.2.2) parse
    { newFiles := r.1, ingestInvoked := true, dbExistsAfter := ing.1,
      localFiles := r.2.1, csvRows := r.2.2 }
  else
    { newFiles := r.1, ingestInvoked := false, dbExistsAfter := dbExists,
      localFiles := r.2.1, csvRows := r.2.2 }

/-! ## web.py: balanced retrieval -/

/-- Is a retrieved document an IIFA document? web.py line 96-99:
`'iifa' in doc.metadata.get('source', '').lower()` (our documents always
carry `source`, set at ingestion). -/
def isIifaDoc (d : Doc) : Bool :=
  strContains (pyLower d.meta.source) "iifa"

/-- The loop of `get_balanced_docs` (web.py lines 95-104): two slots,
each filled by the first document of its category and never overwritten. -/
def balancedLoop : List Doc → Option Doc → Option Doc → Option Doc × Option Doc
  | [], bnm_doc, iifa_doc => (bnm_doc, iifa_doc)
  | d :: rest, bnm_doc, iifa_doc =>
    if isIifaDoc d then
      balancedLoop rest bnm_doc
        (match iifa_doc with | none => some d | some x => some x)
    else
      balancedLoop rest
        (match bnm_doc with | none => some d | some x => some x) iifa_doc

/-- Model of `get_balanced_docs` (web.py lines 86-111): keep at most one BNM and at
most one IIFA document, and compile the result as `[bnm?, iifa?]`. -/
def get_balanced_docs (docs : List Doc) : List Doc :=
  let r := balancedLoop docs none none
  (match r.1 with | some d => [d] | none => []) ++
    (match r.2 with | some d => [d] | none => [])

/-- Model of `format_docs` (web.py lines 154-155):
`"\n\n".join(doc.page_content for doc in docs)`. -/
def format_docs (docs : List Doc) : String :=
  String.intercalate "\n\n" (docs.map fun d => d.page_content)

/-! ## web.py: chain loading -/

/-- The retrieval chain configuration `load_chain` builds when the index
exists (web.py lines 119-169). -/
structure Chain where
  retrieverK : Nat
  modelName : String
deriving Repr, DecidableEq

/-- Model of `load_chain` (web.py lines 114-169): returns `None` when the persisted
index directory does not exist, otherwise the configured chain
(retriever `k = 10`, Groq model). -/
def load_chain (dbExists : Bool) : Option Chain :=
  if dbExists then
    some { retrieverK := 10, modelName := "llama-3.3-70b-versatile" }
  else
    none

/-- The startup check (web.py lines 171-175): when `load_chain` returned
`None` the app shows the database-not-found error and stops before any
question can be answered. -/
def app_startup (dbExists : Bool) : Except String Chain :=
  match load_chain dbExists with
  | none => Except.error "Database not found! Please run ingest.py first."
  | some c => Except.ok c

/-! ## web.py: response handling -/

/-- The fallback citation URL `GENERAL_URL` (web.py line 55). -/
def GENERAL_URL : String := "https://www.bnm.gov.my/banking-islamic-banking"

/-- The fixed warning-phrase detector (web.py line 270):
`"General Knowledge Mode" in answer_text`. -/
def is_general_knowledge (answer_text : String) : Bool :=
  strContains answer_text "General Knowledge Mode"

/-- The suggestion-collection loop (web.py lines 259-264): each segment
after the first is stripped and kept when nonempty and containing a
question mark. -/
def collectSuggestions : List String → List String
  | [] => []
  | s :: rest =>
    let clean_s := pyStrip s
    if clean_s ≠ "" && strContains clean_s "?" then
      clean_s :: collectSuggestions rest
    else
      collectSuggestions rest

/-- The dedup key of the citation loop (web.py line 303):
`f"{source_filename}_{page_idx}"`. -/
def pageKey (d : Doc) : String :=
  d.meta.source ++ "_" ++ toString d.meta.page

/-- One citation line (web.py lines 306-316): the category label comes
from the `"iifa"` filename substring heuristic, the URL from the
provenance map (case-normalized key) with `GENERAL_URL` as fallback. -/
def citation_str (urlMap : List (String × String)) (d : Doc) : String :=
  let clean_filename := pyLower (pyStrip d.meta.source)
  let file_url := dictGet urlMap clean_filename GENERAL_URL
  let label_prefix :=
    if strContains clean_filename "iifa" then "IIFA Resolution" else "BNM Policy"
  "**" ++ label_prefix ++ ":** [" ++ d.meta.source ++ "](" ++ file_url ++
    ") (Page " ++ toString (d.meta.page + 1) ++ ")"

/-- The evidence loop (web.py lines 291-324): one citation per distinct
(filename, page) key, in context order. -/
def citationsLoop (urlMap : List (String × String)) :
    List Doc → List String → List String
  | [], _ => []
  | d :: rest, seen_pages =>
    if pageKey d ∈ seen_pages then
      citationsLoop urlMap rest seen_pages
    else
      citation_str urlMap d :: citationsLoop urlMap rest (pageKey d :: seen_pages)

/-- What the assistant block renders and stores for one turn. -/
structure RenderedMsg where
  answer_text : String
  suggestions : List String
  isGeneralKnowledge : Bool
  citations_list : List String
  citations_text : String
deriving Repr, DecidableEq

/-- The assistant-response handling block (web.py lines 252-335):
split the raw model output on `"|||"`, take segment 0 (stripped) as the
answer, collect up to three new suggested questions (retaining the
previous ones when none parse), detect general-knowledge mode by substring
match on the answer segment, and—only for grounded answers—build the
citation list from the balanced context documents. -/
def handle_response (urlMap : List (String × String)) (retrieved : List Doc)
    (full_response : String) (prevSuggestions : List String) : RenderedMsg :=
  let parts := pySplit "|||" full_response
  let answer_text := pyStrip (parts.headD "")
  let new_suggestions := collectSuggestions (parts.drop 1)
  let suggestions :=
    if 1 ≤ new_suggestions.length then new_suggestions.take 3 else prevSuggestions
  let isGK := is_general_knowledge answer_text
  let context_docs := get_balanced_docs retrieved
  let citations_list := if isGK then [] else citationsLoop urlMap context_docs []
  let citations_text :=
    if isGK then ""
    else if citations_list.isEmpty then ""
    else "\n\n**Sources Used:**\n" ++
      String.intercalate "\n" (citations_list.map fun c => "- " ++ c)
  { answer_text := answer_text
    suggestions := suggestions
    isGeneralKnowledge := isGK
    citations_list := citations_list
    citations_text := citations_text }

/-! ## Helper lemmas: download loop -/

/-- Files already present in the download directory survive the download
loop. -/
theorem downloadStep_mem_mono (links : List String) :
    ∀ (n : Nat) (localFiles : List String) (x : String), x ∈ localFiles →
      x ∈ (downloadStep links n localFiles).2 := by
  induction links with
  | nil => intro n localFiles x hx; simpa [downloadStep] using hx
  | cons link rest ih =>
    intro n localFiles x hx
    by_cases h : lastSeg link ∈ localFiles
    · simpa [downloadStep, h] using ih n localFiles x hx
    · simp only [downloadStep, if_neg h]
      exact ih (n + 1) (localFiles ++ [lastSeg link]) x (List.mem_append_left _ hx)

/-- After the download loop, every processed link's filename is present in
the download directory. -/
theorem downloadStep_filename_mem (links : List String) :
    ∀ (n : Nat) (localFiles : List String) (l : String), l ∈ links →
      lastSeg l ∈ (downloadStep links n localFiles).2 := by
  induction links with
  | nil => intro n localFiles l hl; cases hl
  | cons link rest ih =>
    intro n localFiles l hl
    rcases List.mem_cons.mp hl with h | h
    · subst h
      by_cases hmem : lastSeg l ∈ localFiles
      · simp only [downloadStep, if_pos hmem]
        exact downloadStep_mem_mono rest n localFiles _ hmem
      · simp only [downloadStep, if_neg hmem]
        exact downloadStep_mem_mono rest (n + 1) _ _
          (List.mem_append_right _ (List.mem_singleton.mpr rfl))
    · by_cases hmem : lastSeg link ∈ localFiles
      · simp only [downloadStep, if_pos hmem]; exact ih n localFiles l h
      · simp only [downloadStep, if_neg hmem]; exact ih (n + 1) _ l h

/-- When every link's filename is already present, the download loop is a
no-op: nothing is fetched and nothing counted. -/
theorem downloadStep_all_present (links : List String) :
    ∀ (n : Nat) (localFiles : List String),
      (∀ l ∈ links, lastSeg l ∈ localFiles) →
      downloadStep links n localFiles = (n, localFiles) := by
  induction links with
  | nil => intro n localFiles _; rfl
  | cons link rest ih =>
    intro n localFiles hall
    have hmem : lastSeg link ∈ localFiles := hall link (List.mem_cons_self _ _)
    simp only [downloadStep, if_pos hmem]
    exact ih n localFiles fun l hl => hall l (List.mem_cons_of_mem _ hl)

/-- The provenance rows are exactly one `(filename, url)` pair per
discovered link, in order. -/
theorem csvRowsOf_eq_map (links : List String) :
    csvRowsOf links = links.map fun l => (lastSeg l, l) := by
  induction links with
  | nil => rfl
  | cons link rest ih => simp [csvRowsOf, ih]

/-- A dict lookup whose key matches no row falls back to the default. -/
theorem dictGet_eq_default (rows : List (String × String)) (k d : String)
    (h : ∀ r ∈ rows, r.1 ≠ k) : dictGet rows k d = d := by
  have hfind : rows.reverse.find? (fun r => r.1 == k) = none := by
    apply List.find?_eq_none.mpr
    intro r hr
    simpa using h r (List.mem_reverse.mp hr)
  simp [dictGet, hfind]

/-! ## Helper lemmas: ingestion -/

/-- Every page of every successfully parsed file appears in the
accumulated document list with its stamped metadata. -/
theorem mem_ingestDocs (urlRows : List (String × String))
    (parse : String → Option (List (String × Nat))) (pdfFiles : List String)
    (p : String) (pages : List (String × Nat)) (pg : String × Nat)
    (hp : p ∈ pdfFiles) (hparse : parse p = some pages) (hpg : pg ∈ pages) :
    mkPageDoc urlRows p pg ∈ ingestDocs urlRows parse pdfFiles := by
  induction pdfFiles with
  | nil => cases hp
  | cons q rest ih =>
    rcases List.mem_cons.mp hp with h | h
    · subst h
      simp only [ingestDocs, hparse]
      exact List.mem_append_left _ (List.mem_map_of_mem _ hpg)
    · cases hq : parse q with
      | none => simpa [ingestDocs, hq] using ih h
      | some qpages =>
        simp only [ingestDocs, hq]
        exact List.mem_append_right _ (ih h)

/-- If every file fails to parse, no documents are accumulated. -/
theorem ingestDocs_all_fail (urlRows : List (String × String))
    (parse : String → Option (List (String × Nat))) (pdfFiles : List String)
    (hfail : ∀ p ∈ pdfFiles, parse p = none) :
    ingestDocs urlRows parse pdfFiles = [] := by
  induction pdfFiles with
  | nil => rfl
  | cons q rest ih =>
    have hq := hfail q (List.mem_cons_self _ _)
    simp only [ingestDocs, hq]
    exact ih fun p hp => hfail p (List.mem_cons_of_mem _ hp)

/-! ## Claim theorems: pipeline (C1, C4, C5, C6, C10) -/

/-- C1: the pipeline run invokes the Index Builder (`ingest_to_db`) if and
only if the crawl's newly-downloaded-file count is greater than zero or no
persisted index directory exists; with a zero count and an existing index
the rebuild is skipped. -/
theorem c1_conditional_rebuild (links localFiles : List String)
    (dbExists : Bool) (parse : String → Option (List (String × Nat))) :
    (run_pipeline links localFiles dbExists parse).ingestInvoked = true ↔
      (0 < (crawl_and_download links localFiles).1 ∨ dbExists = false) := by
  cases dbExists with
  | false =>
    simp [run_pipeline]
  | true =>
    rcases Nat.eq_zero_or_pos (crawl_and_download links localFiles).1 with h0 | h0
    · simp [run_pipeline, crawl_and_download] at h0 ⊢
      simp [h0]
    · simp [run_pipeline, crawl_and_download] at h0 ⊢
      simp [h0]

/-- C4: the Download Manager is idempotent — for links whose filenames are
already present the fetch is skipped and not counted, so a second run over
the same link set (in any iteration order) starting from the directory the
first run produced downloads nothing, leaves the directory unchanged, and
rewrites the provenance rows up to row order. -/
theorem c4_idempotent_download (links links2 localFiles : List String)
    (hperm : links2.Perm links) :
    (crawl_and_download links2 (crawl_and_download links localFiles).2.1).1 = 0 ∧
    (crawl_and_download links2 (crawl_and_download links localFiles).2.1).2.1 =
      (crawl_and_download links localFiles).2.1 ∧
    (crawl_and_download links2 (crawl_and_download links localFiles).2.1).2.2.Perm
      (crawl_and_download links localFiles).2.2 := by
  have hall : ∀ l ∈ links2,
      lastSeg l ∈ (crawl_and_download links localFiles).2.1 := by
    intro l hl
    exact downloadStep_filename_mem links 0 localFiles l (hperm.subset hl)
  have hstep := downloadStep_all_present links2 0
    (crawl_and_download links localFiles).2.1 hall
  simp only [crawl_and_download] at hstep ⊢
  refine ⟨?_, ?_, ?_⟩
  · rw [hstep]
  · rw [hstep]
  · simp only [csvRowsOf_eq_map]
    exact hperm.map _

/-- C4 witness: a concrete second run over a reordering of the same two
links downloads nothing and permutes the same provenance rows. -/
theorem c4_idempotent_download_witness :
    (crawl_and_download ["https://b/y.pdf", "https://a/x.pdf"]
      (crawl_and_download ["https://a/x.pdf", "https://b/y.pdf"] []).2.1).1 = 0 ∧
    (crawl_and_download ["https://b/y.pdf", "https://a/x.pdf"]
      (crawl_and_download ["https://a/x.pdf", "https://b/y.pdf"] []).2.1).2.1 =
      (crawl_and_download ["https://a/x.pdf", "https://b/y.pdf"] []).2.1 ∧
    (crawl_and_download ["https://b/y.pdf", "https://a/x.pdf"]
      (crawl_and_download ["https://a/x.pdf", "https://b/y.pdf"] []).2.1).2.2.Perm
      (crawl_and_download ["https://a/x.pdf", "https://b/y.pdf"] []).2.2 :=
  c4_idempotent_download ["https://a/x.pdf", "https://b/y.pdf"]
    ["https://b/y.pdf", "https://a/x.pdf"] [] (by decide)

/-- C5: the provenance file is rewritten in full with exactly one row per
currently-discovered link (`filename = last path segment`, `url = link`),
and the effective filename-to-URL mapping a reader builds is
last-write-wins: for every filename, at most one effective URL — the one
of the last discovered link bearing that filename. -/
theorem c5_provenance_invariant (links : List String) :
    csvRowsOf links = (links.map fun l => (lastSeg l, l)) ∧
    ∀ fn d, dictGet (csvRowsOf links) fn d =
      (match links.reverse.find? (fun l => lastSeg l == fn) with
       | some l => l
       | none => d) := by
  refine ⟨csvRowsOf_eq_map links, ?_⟩
  intro fn d
  rw [csvRowsOf_eq_map]
  simp only [dictGet, ← List.map_reverse, List.find?_map]
  cases hf : links.reverse.find? (fun l => lastSeg l == fn) with
  | none =>
    have : links.reverse.find?
        ((fun r : String × String => r.1 == fn) ∘ fun l => (lastSeg l, l)) = none := by
      simpa [Function.comp] using hf
    simp [this]
  | some l =>
    have : links.reverse.find?
        ((fun r : String × String => r.1 == fn) ∘ fun l => (lastSeg l, l)) = some l := by
      simpa [Function.comp] using hf
    simp [this]

/-- C6: every page of every successfully parsed local document is indexed
with metadata source = the file's basename, page = the parsed page number,
and url = the provenance-map lookup of the basename; when the basename is
absent from the provenance map the url defaults to the sentinel marker
(the code's literal `"#"`). -/
theorem c6_page_metadata (pdfFiles : List String) (dbExists : Bool)
    (csv : Option (List (String × String)))
    (parse : String → Option (List (String × Nat)))
    (p : String) (pages : List (String × Nat)) (pg : String × Nat)
    (hp : p ∈ pdfFiles) (hparse : parse p = some pages) (hpg : pg ∈ pages) :
    ({ page_content := pg.1,
       meta := { source := lastSeg p, page := pg.2,
                 url := dictGet (csv.getD []) (lastSeg p) "#" } } : Doc) ∈
      (ingest_to_db pdfFiles dbExists csv parse).2 ∧
    ((∀ r ∈ csv.getD [], r.1 ≠ lastSeg p) →
      dictGet (csv.getD []) (lastSeg p) "#" = "#") := by
  constructor
  · have hmem := mem_ingestDocs (csv.getD []) parse pdfFiles p pages pg hp hparse hpg
    have hne : pdfFiles.isEmpty = false := by
      cases pdfFiles with
      | nil => cases hp
      | cons _ _ => rfl
    have hdocs : (ingestDocs (csv.getD []) parse pdfFiles).isEmpty = false := by
      cases hd : ingestDocs (csv.getD []) parse pdfFiles with
      | nil => rw [hd] at hmem; cases hmem
      | cons _ _ => rfl
    simpa [ingest_to_db, hne, hdocs, mkPageDoc] using hmem
  · intro habsent
    exact dictGet_eq_default _ _ _ habsent

/-- C6 witness: a concrete one-file, one-page ingestion stamps the
expected metadata, with the URL resolved from the provenance rows. -/
theorem c6_page_metadata_witness :
    (⟨"text", ⟨"doc1.pdf", 0,
        dictGet [("doc1.pdf", "https://s/doc1.pdf")] "doc1.pdf" "#"⟩⟩ : Doc) ∈
      (ingest_to_db ["my_pdfs/doc1.pdf"] true
        (some [("doc1.pdf", "https://s/doc1.pdf")])
        (fun q => if q = "my_pdfs/doc1.pdf" then some [("text", 0)] else none)).2 :=
  (c6_page_metadata ["my_pdfs/doc1.pdf"] true
    (some [("doc1.pdf", "https://s/doc1.pdf")])
    (fun q => if q = "my_pdfs/doc1.pdf" then some [("text", 0)] else none)
    "my_pdfs/doc1.pdf" [("text", 0)] ("text", 0)
    (by decide) (by decide) (by decide)).1

/-- C10: the rebuild is not atomic under total parse failure — with at
least one PDF present and an existing persisted index, `ingest_to_db`
deletes the index first; if every PDF then fails to parse, nothing is
written and the system is left with no persisted index at all. -/
theorem c10_non_atomic_rebuild (pdfFiles : List String)
    (csv : Option (List (String × String)))
    (parse : String → Option (List (String × Nat)))
    (hne : pdfFiles ≠ [])
    (hfail : ∀ p ∈ pdfFiles, parse p = none) :
    (ingest_to_db pdfFiles true csv parse).1 = false ∧
    (ingest_to_db pdfFiles true csv parse).2 = [] := by
  have hempty : pdfFiles.isEmpty = false := by
    cases pdfFiles with
    | nil => exact absurd rfl hne
    | cons _ _ => rfl
  have hdocs := ingestDocs_all_fail (csv.getD []) parse pdfFiles hfail
  constructor <;> simp [ingest_to_db, hempty, hdocs]

/-- C10 witness: one unparseable PDF plus an existing index leaves no
index behind. -/
theorem c10_non_atomic_rebuild_witness :
    (ingest_to_db ["my_pdfs/bad.pdf"] true none (fun _ => none)).1 = false ∧
    (ingest_to_db ["my_pdfs/bad.pdf"] true none (fun _ => none)).2 = [] :=
  c10_non_atomic_rebuild ["my_pdfs/bad.pdf"] none (fun _ => none)
    (by decide) (by intro p _; rfl)

/-! ## Helper lemmas: balanced retrieval -/

/-- Fill-once slot combination: an already-filled slot keeps its value. -/
def optOr {α : Type} (a b : Option α) : Option α :=
  match a with
  | some x => some x
  | none => b

/-- The balancing loop keeps, for each slot, its incoming value or else
the first document of that category in input order. -/
theorem balancedLoop_eq (docs : List Doc) :
    ∀ bnm iifa : Option Doc,
      balancedLoop docs bnm iifa =
        (optOr bnm (docs.find? fun d => !isIifaDoc d),
         optOr iifa (docs.find? fun d => isIifaDoc d)) := by
  induction docs with
  | nil =>
    intro bnm iifa
    cases bnm <;> cases iifa <;> rfl
  | cons d rest ih =>
    intro bnm iifa
    by_cases h : isIifaDoc d = true
    · simp only [balancedLoop, if_pos h, ih, List.find?_cons, h,
        Bool.not_true]
      cases iifa <;> simp [optOr]
    · have h' : isIifaDoc d = false := by simpa using h
      simp only [balancedLoop, if_neg h, ih, List.find?_cons, h',
        Bool.not_false]
      cases bnm <;> simp [optOr]

/-- Closed form of `get_balanced_docs`: the first non-IIFA document (if
any) followed by the first IIFA document (if any). -/
theorem get_balanced_docs_eq (docs : List Doc) :
    get_balanced_docs docs =
      (docs.find? fun d => !isIifaDoc d).toList ++
        (docs.find? fun d => isIifaDoc d).toList := by
  simp only [get_balanced_docs, balancedLoop_eq, optOr]
  cases docs.find? fun d => !isIifaDoc d <;>
    cases docs.find? fun d => isIifaDoc d <;> rfl

/-- A nonempty retrieval result yields a nonempty balanced list. -/
theorem get_balanced_docs_ne_nil (docs : List Doc) (h : docs ≠ []) :
    get_balanced_docs docs ≠ [] := by
  cases docs with
  | nil => exact absurd rfl h
  | cons d rest =>
    rw [get_balanced_docs_eq]
    by_cases hd : isIifaDoc d = true
    · have : (d :: rest).find? (fun d => isIifaDoc d) = some d := by
        simp [List.find?_cons, hd]
      simp [this]
    · have hd' : isIifaDoc d = false := by simpa using hd
      have : (d :: rest).find? (fun d => !isIifaDoc d) = some d := by
        simp [List.find?_cons, hd']
      simp [this]

/-! ## Claim theorem: C2 -/

/-- C2: with both source categories present among the retrieved chunks,
the rebalanced result keeps at most one chunk per category, and the kept
chunk of each category is the first one of that category in input
(similarity-ranked) order. -/
theorem c2_category_rebalancing (docs : List Doc)
    (_hIifa : ∃ d ∈ docs, isIifaDoc d = true)
    (_hBnm : ∃ d ∈ docs, isIifaDoc d = false) :
    ((get_balanced_docs docs).filter fun d => isIifaDoc d).length ≤ 1 ∧
    ((get_balanced_docs docs).filter fun d => !isIifaDoc d).length ≤ 1 ∧
    ((get_balanced_docs docs).filter fun d => isIifaDoc d) =
      (docs.find? fun d => isIifaDoc d).toList ∧
    ((get_balanced_docs docs).filter fun d => !isIifaDoc d) =
      (docs.find? fun d => !isIifaDoc d).toList := by
  rw [get_balanced_docs_eq]
  have hiifa_eq :
      (((docs.find? fun d => !isIifaDoc d).toList ++
        (docs.find? fun d => isIifaDoc d).toList).filter fun d => isIifaDoc d) =
      (docs.find? fun d => isIifaDoc d).toList := by
    rw [List.filter_append]
    cases ha : docs.find? fun d => !isIifaDoc d with
    | none =>
      cases hb : docs.find? fun d => isIifaDoc d with
      | none => rfl
      | some y =>
        have hy := List.find?_some hb
        simp [List.filter_cons, hy]
    | some x =>
      have hx := List.find?_some ha
      have hx' : isIifaDoc x = false := by simpa using hx
      cases hb : docs.find? fun d => isIifaDoc d with
      | none => simp [List.filter_cons, hx']
      | some y =>
        have hy := List.find?_some hb
        simp [List.filter_cons, hx', hy]
  have hbnm_eq :
      (((docs.find? fun d => !isIifaDoc d).toList ++
        (docs.find? fun d => isIifaDoc d).toList).filter fun d => !isIifaDoc d) =
      (docs.find? fun d => !isIifaDoc d).toList := by
    rw [List.filter_append]
    cases ha : docs.find? fun d => !isIifaDoc d with
    | none =>
      cases hb : docs.find? fun d => isIifaDoc d with
      | none => rfl
      | some y =>
        have hy := List.find?_some hb
        simp [List.filter_cons, hy]
    | some x =>
      have hx := List.find?_some ha
      cases hb : docs.find? fun d => isIifaDoc d with
      | none => simp [List.filter_cons, hx]
      | some y =>
        have hy := List.find?_some hb
        simp [List.filter_cons, hx, hy]
  refine ⟨?_, ?_, hiifa_eq, hbnm_eq⟩
  · rw [hiifa_eq]
    cases docs.find? fun d => isIifaDoc d <;> simp
  · rw [hbnm_eq]
    cases docs.find? fun d => !isIifaDoc d <;> simp

/-- A retrieved IIFA chunk (by filename substring). -/
def docIifaA : Doc := ⟨"A", ⟨"iifa-res-1.pdf", 0, "https://iifa/1"⟩⟩

/-- A retrieved BNM chunk (filename without the IIFA substring). -/
def docBnmB : Doc := ⟨"B", ⟨"bnm-pol-1.pdf", 0, "https://bnm/1"⟩⟩

/-- A second retrieved IIFA chunk, ranked below `docIifaA`. -/
def docIifaC : Doc := ⟨"C", ⟨"iifa-res-2.pdf", 3, "https://iifa/2"⟩⟩

/-- C2 witness: on a concrete three-chunk, two-category retrieval the
rebalanced result keeps exactly the first chunk of each category. -/
theorem c2_category_rebalancing_witness :
    (((get_balanced_docs [docIifaA, docBnmB, docIifaC]).filter
        fun d => isIifaDoc d).length ≤ 1 ∧
     ((get_balanced_docs [docIifaA, docBnmB, docIifaC]).filter
        fun d => !isIifaDoc d).length ≤ 1 ∧
     ((get_balanced_docs [docIifaA, docBnmB, docIifaC]).filter
        fun d => isIifaDoc d) =
       ([docIifaA, docBnmB, docIifaC].find? fun d => isIifaDoc d).toList ∧
     ((get_balanced_docs [docIifaA, docBnmB, docIifaC]).filter
        fun d => !isIifaDoc d) =
       ([docIifaA, docBnmB, docIifaC].find? fun d => !isIifaDoc d).toList) :=
  c2_category_rebalancing [docIifaA, docBnmB, docIifaC]
    ⟨docIifaA, by decide⟩ ⟨docBnmB, by decide⟩

/-! ## Claim C7: context assembly order -/

/-- C7 counterexample: with the top-ranked retrieved chunk from IIFA and
the second from BNM, both chunks are kept, but the context blob is their
concatenation in fixed category order (BNM first), not in retrieval
order — the claimed retrieval-order blob would be `"A\n\nB"`. -/
theorem c7_context_order_counterexample :
    get_balanced_docs [docIifaA, docBnmB] = [docBnmB, docIifaA] ∧
    format_docs (get_balanced_docs [docIifaA, docBnmB]) = "B\n\nA" ∧
    format_docs (get_balanced_docs [docIifaA, docBnmB]) ≠
      String.intercalate "\n\n" ([docIifaA, docBnmB].map fun d => d.page_content) := by
  refine ⟨by decide, by decide, by decide⟩

/-- C7 amended: the context blob submitted to the language model is the
concatenation (joined by blank lines) of the kept chunks' text in fixed
category order — the first-retrieved non-IIFA chunk first, then the
first-retrieved IIFA chunk — which coincides with retrieval order only
when the kept non-IIFA chunk outranks the kept IIFA chunk. -/
theorem c7_context_assembly_amended (docs : List Doc) :
    format_docs (get_balanced_docs docs) =
      String.intercalate "\n\n"
        (((docs.find? fun d => !isIifaDoc d).toList ++
          (docs.find? fun d => isIifaDoc d).toList).map fun d => d.page_content) := by
  rw [format_docs, get_balanced_docs_eq]

/-! ## Claim C3: citation grounding -/

/-- The citation loop renders one entry per document on a duplicate-free
start, so a nonempty context yields a nonempty citation list. -/
theorem citationsLoop_ne_nil (urlMap : List (String × String))
    (docs : List Doc) (h : docs ≠ []) :
    citationsLoop urlMap docs [] ≠ [] := by
  cases docs with
  | nil => exact absurd rfl h
  | cons d rest =>
    simp [citationsLoop]

/-- C3: for every rendered turn, when the answer segment does not contain
the general-knowledge warning phrase the citation list is nonempty
whenever retrieval returned at least one chunk; when it does contain the
phrase, citation rendering is suppressed entirely. -/
theorem c3_citation_grounding (urlMap : List (String × String))
    (retrieved : List Doc) (resp : String) (prev : List String) :
    (is_general_knowledge
        (handle_response urlMap retrieved resp prev).answer_text = false →
      retrieved ≠ [] →
      (handle_response urlMap retrieved resp prev).citations_list ≠ []) ∧
    (is_general_knowledge
        (handle_response urlMap retrieved resp prev).answer_text = true →
      (handle_response urlMap retrieved resp prev).citations_list = [] ∧
      (handle_response urlMap retrieved resp prev).citations_text = "") := by
  constructor
  · intro hgk hne
    simp only [handle_response] at hgk ⊢
    simp only [List.headD_eq_head?_getD] at hgk ⊢
    simp only [hgk, Bool.false_eq_true, if_false]
    exact citationsLoop_ne_nil urlMap _ (get_balanced_docs_ne_nil retrieved hne)
  · intro hgk
    simp only [handle_response] at hgk ⊢
    simp only [List.headD_eq_head?_getD] at hgk ⊢
    simp [hgk]

/-- C3 witness: a grounded answer over one retrieved chunk renders a
nonempty citation list, and a general-knowledge answer renders none. -/
theorem c3_citation_grounding_witness :
    ((handle_response [] [docBnmB] "Grounded answer. ||| Q1?" ["p"]).citations_list ≠ [] ∧
     (handle_response [] [] "General Knowledge Mode: general principles." []).citations_list = [] ∧
     (handle_response [] [] "General Knowledge Mode: general principles." []).citations_text = "") :=
  ⟨(c3_citation_grounding [] [docBnmB] "Grounded answer. ||| Q1?" ["p"]).1
      (by decide) (by decide),
   (c3_citation_grounding [] [] "General Knowledge Mode: general principles." []).2
      (by decide)⟩

/-! ## Claim C8: response parsing -/

/-- The suggestion loop collects exactly the stripped post-separator
segments that are nonempty and contain a question mark. -/
theorem collectSuggestions_eq (l : List String) :
    collectSuggestions l =
      (l.map pyStrip).filter fun c => c ≠ "" && strContains c "?" := by
  induction l with
  | nil => rfl
  | cons s rest ih =>
    simp only [collectSuggestions, List.map_cons, List.filter_cons, ih]

/-- A character list without an occurrence of the separator splits into
itself alone. -/
theorem splitSepChars_of_not_contains (p : Char) (ps : List Char) :
    ∀ (fuel : Nat) (l : List Char),
      charsContains (p :: ps) l = false →
      splitSepChars p ps fuel l = [l] := by
  intro fuel
  induction fuel with
  | zero =>
    intro l _
    cases l <;> rfl
  | succ n ih =>
    intro l h
    cases l with
    | nil => rfl
    | cons c rest =>
      simp only [charsContains, Bool.or_eq_false_iff] at h
      have h1 : charsIsPrefix (p :: ps) (c :: rest) = false := h.1
      simp [splitSepChars, h1, ih rest h.2]

/-- A model response without the separator token splits into a single
segment. -/
theorem pySplit_sep_absent (s : String)
    (h : strContains s "|||" = false) : pySplit "|||" s = [s] := by
  obtain ⟨d⟩ := s
  have hd : charsContains ['|', '|', '|'] d = false := h
  simp only [pySplit]
  simp [splitSepChars_of_not_contains '|' ['|', '|'] d.length d hd]

/-- C8: the raw model response is split on `"|||"`; segment 0 (stripped)
is the answer; the remaining segments, stripped and kept only when
nonempty with a question mark, become the new suggestion set capped at
three; when no segment qualifies — in particular when the separator is
absent — the previous suggestion set is retained unchanged. -/
theorem c8_response_parsing (urlMap : List (String × String))
    (retrieved : List Doc) (resp : String) (prev : List String) :
    (handle_response urlMap retrieved resp prev).answer_text =
      pyStrip ((pySplit "|||" resp).headD "") ∧
    ((handle_response urlMap retrieved resp prev).suggestions =
      if (((pySplit "|||" resp).drop 1).map pyStrip).filter
           (fun c => c ≠ "" && strContains c "?") = [] then prev
      else ((((pySplit "|||" resp).drop 1).map pyStrip).filter
           (fun c => c ≠ "" && strContains c "?")).take 3) ∧
    (strContains resp "|||" = false →
      (handle_response urlMap retrieved resp prev).suggestions = prev) := by
  refine ⟨rfl, ?_, ?_⟩
  · simp only [handle_response, collectSuggestions_eq]
    cases hq : (((pySplit "|||" resp).drop 1).map pyStrip).filter
        (fun c => c ≠ "" && strContains c "?") with
    | nil => simp
    | cons a as => simp
  · intro habs
    simp only [handle_response, pySplit_sep_absent resp habs,
      List.drop_succ_cons, List.drop_nil, collectSuggestions]
    simp

/-- C8 witness: a three-question response yields the three parsed
questions; a separator-free response retains the previous suggestions. -/
theorem c8_response_parsing_witness :
    strContains "no delimiter in this answer" "|||" = false ∧
    (handle_response [] [] "no delimiter in this answer" ["keep me"]).suggestions =
      ["keep me"] :=
  ⟨by decide,
   (c8_response_parsing [] [] "no delimiter in this answer" ["keep me"]).2.2
     (by decide)⟩

/-! ## Claim C9: not-ready signalling -/

/-- C9: when the persisted index directory does not exist, the chain
loader returns nothing and the app startup signals the not-ready error
instead of answering. -/
theorem c9_not_ready :
    load_chain false = none ∧
    app_startup false =
      Except.error "Database not found! Please run ingest.py first." :=
  ⟨rfl, rfl⟩

end Shariah
